import Mathlib

/-!
# Verification of the sidecar process lifecycle supervisor

Shallow embedding of `src/frontend-next/src-tauri/src/lib.rs`: the output
relay task (stdout/stderr/terminated/error event logging) and the process
supervisor (mutex-guarded `Option` slot holding the child handle, killed on
window destroy).  Byte strings are `List Nat` (each < 256), code points are
`Nat`, log messages are `String`.
-/

namespace TranscribeAlpha

/-- Severity levels of the structured log sink (`log::info!`, `log::warn!`,
`log::error!`). -/
inductive LogLevel
  | info
  | warn
  | error
deriving DecidableEq, Repr

/-- A log entry: severity together with the formatted message. -/
abbrev LogEntry := LogLevel × String

/-- `tauri_plugin_shell::process::TerminatedPayload`: exit code and signal of
the terminated process. -/
structure TerminatedPayload where
  code : Option Int
  signal : Option Int
deriving DecidableEq, Repr

/-- `tauri_plugin_shell::process::CommandEvent`: the events delivered on the
receiver returned by `spawn()`.  `Other` stands for any event variant not
named in the relay's `match` (covered by its `_ => {}` arm). -/
inductive CommandEvent
  | Stdout (line : List Nat)
  | Stderr (line : List Nat)
  | Error (message : String)
  | Terminated (payload : TerminatedPayload)
  | Other
deriving DecidableEq, Repr

/-! ## UTF-8 lossy decoding (`String::from_utf8_lossy`)

Rust replaces each maximal ill-formed subpart with U+FFFD (the count of
bytes skipped on error follows `core::str::from_utf8`: 1 for a bad lead or
bad second byte, 2 resp. 3 when a longer prefix was well-formed). -/

/-- `String::from_utf8_lossy`, at the level of code points: decode a byte
list to the list of decoded scalar values, emitting `0xFFFD` for each
maximal ill-formed subpart. -/
def utf8DecodeLossy : List Nat → List Nat
  | [] => []
  | b1 :: rest =>
    if b1 < 0x80 then
      b1 :: utf8DecodeLossy rest
    else if b1 < 0xC2 then
      0xFFFD :: utf8DecodeLossy rest
    else if b1 ≤ 0xDF then
      match rest with
      | [] => [0xFFFD]
      | b2 :: rest2 =>
        if 0x80 ≤ b2 ∧ b2 < 0xC0 then
          ((b1 - 0xC0) * 64 + (b2 - 0x80)) :: utf8DecodeLossy rest2
        else
          0xFFFD :: utf8DecodeLossy (b2 :: rest2)
    else if b1 ≤ 0xEF then
      match rest with
      | [] => [0xFFFD]
      | b2 :: rest2 =>
        if 0x80 ≤ b2 ∧ b2 < 0xC0 ∧ (b1 = 0xE0 → 0xA0 ≤ b2) ∧ (b1 = 0xED → b2 < 0xA0) then
          match rest2 with
          | [] => [0xFFFD]
          | b3 :: rest3 =>
            if 0x80 ≤ b3 ∧ b3 < 0xC0 then
              ((b1 - 0xE0) * 4096 + (b2 - 0x80) * 64 + (b3 - 0x80)) :: utf8DecodeLossy rest3
            else
              0xFFFD :: utf8DecodeLossy (b3 :: rest3)
        else
          0xFFFD :: utf8DecodeLossy (b2 :: rest2)
    else if b1 ≤ 0xF4 then
      match rest with
      | [] => [0xFFFD]
      | b2 :: rest2 =>
        if 0x80 ≤ b2 ∧ b2 < 0xC0 ∧ (b1 = 0xF0 → 0x90 ≤ b2) ∧ (b1 = 0xF4 → b2 < 0x90) then
          match rest2 with
          | [] => [0xFFFD]
          | b3 :: rest3 =>
            if 0x80 ≤ b3 ∧ b3 < 0xC0 then
              match rest3 with
              | [] => [0xFFFD]
              | b4 :: rest4 =>
                if 0x80 ≤ b4 ∧ b4 < 0xC0 then
                  ((b1 - 0xF0) * 262144 + (b2 - 0x80) * 4096 + (b3 - 0x80) * 64 + (b4 - 0x80)) ::
                    utf8DecodeLossy rest4
                else
                  0xFFFD :: utf8DecodeLossy (b4 :: rest4)
            else
              0xFFFD :: utf8DecodeLossy (b3 :: rest3)
        else
          0xFFFD :: utf8DecodeLossy (b2 :: rest2)
    else
      0xFFFD :: utf8DecodeLossy rest

/-- A Unicode scalar value: any code point except the surrogate range. -/
def ScalarValue (c : Nat) : Prop :=
  c < 0xD800 ∨ (0xE000 ≤ c ∧ c < 0x110000)

instance (c : Nat) : Decidable (ScalarValue c) := by
  unfold ScalarValue
  infer_instance

/-- Standard UTF-8 encoding of one scalar value. -/
def utf8EncodeCp (c : Nat) : List Nat :=
  if c < 0x80 then [c]
  else if c < 0x800 then [0xC0 + c / 64, 0x80 + c % 64]
  else if c < 0x10000 then [0xE0 + c / 4096, 0x80 + c / 64 % 64, 0x80 + c % 64]
  else [0xF0 + c / 262144, 0x80 + c / 4096 % 64, 0x80 + c / 64 % 64, 0x80 + c % 64]

/-- Standard UTF-8 encoding of a list of scalar values. -/
def utf8Encode (cs : List Nat) : List Nat :=
  (cs.map utf8EncodeCp).flatten

/-- A byte list is valid UTF-8 when it is the encoding of some list of
scalar values. -/
def ValidUtf8 (bs : List Nat) : Prop :=
  ∃ cs : List Nat, (∀ c ∈ cs, ScalarValue c) ∧ utf8Encode cs = bs

/-- Build a `String` from a list of scalar values (the decoder only emits
scalar values, for which `Char.ofNat` is exact). -/
def cpsToString (cs : List Nat) : String :=
  ⟨cs.map Char.ofNat⟩

/-- `String::from_utf8_lossy(&line)` as a `String`. -/
def fromUtf8Lossy (line : List Nat) : String :=
  cpsToString (utf8DecodeLossy line)

/-- Rust `char::is_whitespace`: the Unicode `White_Space` property. -/
def isRustWhitespace (c : Char) : Bool :=
  [9, 10, 11, 12, 13, 32, 133, 160, 5760,
    8192, 8193, 8194, 8195, 8196, 8197, 8198, 8199, 8200, 8201, 8202,
    8232, 8233, 8239, 8287, 12288].contains c.toNat

/-- Rust `str::trim`: remove leading and trailing `char::is_whitespace`
characters. -/
def rustTrim (s : String) : String :=
  ⟨((s.data.dropWhile isRustWhitespace).reverse.dropWhile isRustWhitespace).reverse⟩

/-- Rust `Debug` formatting of an `Option<i32>`. -/
def optionIntDebug : Option Int → String
  | none => "None"
  | some n => "Some(" ++ toString n ++ ")"

/-- Rust derived `Debug` formatting of a `TerminatedPayload`. -/
def terminatedPayloadDebug (p : TerminatedPayload) : String :=
  "TerminatedPayload \x7b code: " ++ optionIntDebug p.code ++
    ", signal: " ++ optionIntDebug p.signal ++ " \x7d"

/-- Message logged for a `Stdout` event:
`log::info!("[sidecar] {}", line.trim())` after lossy decoding. -/
def stdoutMessage (line : List Nat) : String :=
  "[sidecar] " ++ rustTrim (fromUtf8Lossy line)

/-- Message logged for a `Stderr` event:
`log::warn!("[sidecar] {}", line.trim())` after lossy decoding. -/
def stderrMessage (line : List Nat) : String :=
  "[sidecar] " ++ rustTrim (fromUtf8Lossy line)

/-- Message logged for a `Terminated` event:
`log::info!("[sidecar] terminated with {:?}", status)`. -/
def terminatedMessage (p : TerminatedPayload) : String :=
  "[sidecar] terminated with " ++ terminatedPayloadDebug p

/-- Message logged for an `Error` event:
`log::error!("[sidecar] error: {}", err)`. -/
def errorMessage (message : String) : String :=
  "[sidecar] error: " ++ message

/-! ## The output relay task

`while let Some(event) = rx.recv().await { match event { ... } }` — the
stream is a finite event list; the relay returns the log entries it emitted
together with the part of the stream it never consumed (it breaks out of
the loop on `Terminated` and `Error`). -/

/-- The relay loop of `setup`: consume events, log each by the severity
mapping, stop at the first terminal event.  Returns (entries logged, events
left unconsumed). -/
def relayRun : List CommandEvent → List LogEntry × List CommandEvent
  | [] => ([], [])
  | CommandEvent.Stdout line :: rest =>
    let r := relayRun rest
    ((LogLevel.info, stdoutMessage line) :: r.1, r.2)
  | CommandEvent.Stderr line :: rest =>
    let r := relayRun rest
    ((LogLevel.warn, stderrMessage line) :: r.1, r.2)
  | CommandEvent.Terminated payload :: rest =>
    ([(LogLevel.info, terminatedMessage payload)], rest)
  | CommandEvent.Error message :: rest =>
    ([(LogLevel.error, errorMessage message)], rest)
  | CommandEvent.Other :: rest => relayRun rest

/-! ## The process supervisor

`SidecarChild(std::sync::Mutex<Option<CommandChild>>)` is managed app
state; the window-destroy handler takes the handle out of the slot and
kills it.  A `CommandChild` is identified by an opaque id. -/

/-- Opaque identifier of a spawned child process handle
(`tauri_plugin_shell::process::CommandChild`). -/
abbrev CommandChild := Nat

/-- Observable effects of the `WindowEvent::Destroyed` handler on the slot:
`if let Some(child) = state.0.lock().unwrap().take() { let _ = child.kill();
log::info!("[sidecar] killed on window destroy"); }`.
Returns (new slot contents, kill signals sent, log entries written). -/
def on_window_event (slot : Option CommandChild) :
    Option CommandChild × List CommandChild × List LogEntry :=
  match slot with
  | some child =>
    (none, [child], [(LogLevel.info, "[sidecar] killed on window destroy")])
  | none => (none, [], [])

/-- Control flow of the same handler, with the result of `child.kill()`
supplied by an oracle: the `let _ =` discards the kill result, so the
handler returns normally no matter what `kill()` did. -/
def on_window_event_result (kill : CommandChild → Except String Unit)
    (slot : Option CommandChild) : Except String Unit :=
  match slot with
  | some child =>
    let _ := kill child
    Except.ok ()
  | none => Except.ok ()

/-- `n` consecutive invocations of the destroy handler against the same
slot; accumulates the kill signals sent. -/
def runTerminates : Nat → Option CommandChild → Option CommandChild × List CommandChild
  | 0, slot => (slot, [])
  | n + 1, slot =>
    let s := on_window_event slot
    let r := runTerminates n s.1
    (r.1, s.2.1 ++ r.2)

/-- Operations that touch the supervisor slot: `app.manage(SidecarChild(..
Some(child)))` in `setup`, and the destroy handler. -/
inductive SupOp
  | store (child : CommandChild)
  | terminate
deriving DecidableEq, Repr

/-- Supervisor state: slot contents and the kill signals sent so far.  The
unmanaged state (before `app.manage`) behaves like an empty slot, because
`window.try_state` returns `None` and the handler falls through. -/
abbrev SupState := Option CommandChild × List CommandChild

/-- One supervisor operation applied to the state. -/
def supStep : SupState → SupOp → SupState
  | (_, kills), SupOp.store child => (some child, kills)
  | (slot, kills), SupOp.terminate =>
    let s := on_window_event slot
    (s.1, kills ++ s.2.1)

/-- A sequence of supervisor operations applied in order. -/
def runOps : SupState → List SupOp → SupState
  | st, [] => st
  | st, op :: ops => runOps (supStep st op) ops

/-! ## Application startup (`setup`)

`let sidecar = app.shell().sidecar("transcribealpha-server").expect(..);`
`let (mut rx, child) = sidecar.spawn().expect(..);` — `.expect` panics on
`Err`, aborting startup, modelled as `Except.error`. -/

/-- The `setup` closure: resolve the sidecar command, spawn it, obtain
(event stream, child handle).  On success the handle is stored in the slot
and the stream is handed to the relay task; either `.expect` failure aborts
startup. -/
def setup (sidecarRes : Except String Unit)
    (spawnRes : Except String (List CommandEvent × CommandChild)) :
    Except String (List CommandEvent × Option CommandChild) :=
  match sidecarRes with
  | Except.error e => Except.error ("failed to create sidecar command: " ++ e)
  | Except.ok _ =>
    match spawnRes with
    | Except.error e => Except.error ("failed to spawn sidecar: " ++ e)
    | Except.ok (rx, child) => Except.ok (rx, some child)

/-- Number of live handles held by the slot (an `Option` holds at most
one). -/
def slotCount : Option CommandChild → Nat
  | none => 0
  | some _ => 1

/-- Modelled from the spec: the trimming rule as the specification words it,
removing trailing whitespace only.  Used to compare the documented rule with
the implemented `str::trim`. -/
def specTrailingTrim (s : String) : String :=
  ⟨(s.data.reverse.dropWhile isRustWhitespace).reverse⟩

/-! ## Helper lemmas -/

theorem utf8Encode_cons (c : Nat) (cs : List Nat) :
    utf8Encode (c :: cs) = utf8EncodeCp c ++ utf8Encode cs := rfl

theorem utf8EncodeCp_ascii (b : Nat) (h : b < 128) : utf8EncodeCp b = [b] := by
  unfold utf8EncodeCp
  rw [if_pos h]

theorem utf8EncodeCp_two (b1 b2 : Nat) (h1 : 194 ≤ b1) (h2 : b1 ≤ 223)
    (h3 : 128 ≤ b2) (h4 : b2 < 192) :
    utf8EncodeCp ((b1 - 192) * 64 + (b2 - 128)) = [b1, b2] := by
  unfold utf8EncodeCp
  rw [if_neg (by omega), if_pos (by omega)]
  simp only [List.cons.injEq, and_true]
  omega

theorem utf8EncodeCp_three (b1 b2 b3 : Nat) (h1 : 224 ≤ b1) (h2 : b1 ≤ 239)
    (h3 : 128 ≤ b2) (h4 : b2 < 192) (h5 : b1 = 224 → 160 ≤ b2)
    (h6 : 128 ≤ b3) (h7 : b3 < 192) :
    utf8EncodeCp ((b1 - 224) * 4096 + (b2 - 128) * 64 + (b3 - 128)) = [b1, b2, b3] := by
  unfold utf8EncodeCp
  rw [if_neg (by omega), if_neg (by omega), if_pos (by omega)]
  simp only [List.cons.injEq, and_true]
  omega

theorem utf8EncodeCp_four (b1 b2 b3 b4 : Nat) (h1 : 240 ≤ b1) (h2 : b1 ≤ 244)
    (h3 : 128 ≤ b2) (h4 : b2 < 192) (h5 : b1 = 240 → 144 ≤ b2)
    (h6 : 128 ≤ b3) (h7 : b3 < 192) (h8 : 128 ≤ b4) (h9 : b4 < 192) :
    utf8EncodeCp ((b1 - 240) * 262144 + (b2 - 128) * 4096 + (b3 - 128) * 64 + (b4 - 128)) =
      [b1, b2, b3, b4] := by
  unfold utf8EncodeCp
  rw [if_neg (by omega), if_neg (by omega), if_neg (by omega)]
  simp only [List.cons.injEq, and_true]
  omega

theorem utf8DecodeLossy_cons_eq (b1 : Nat) (rest : List Nat) :
    utf8DecodeLossy (b1 :: rest) =
      if b1 < 0x80 then
        b1 :: utf8DecodeLossy rest
      else if b1 < 0xC2 then
        0xFFFD :: utf8DecodeLossy rest
      else if b1 ≤ 0xDF then
        match rest with
        | [] => [0xFFFD]
        | b2 :: rest2 =>
          if 0x80 ≤ b2 ∧ b2 < 0xC0 then
            ((b1 - 0xC0) * 64 + (b2 - 0x80)) :: utf8DecodeLossy rest2
          else
            0xFFFD :: utf8DecodeLossy (b2 :: rest2)
      else if b1 ≤ 0xEF then
        match rest with
        | [] => [0xFFFD]
        | b2 :: rest2 =>
          if 0x80 ≤ b2 ∧ b2 < 0xC0 ∧ (b1 = 0xE0 → 0xA0 ≤ b2) ∧ (b1 = 0xED → b2 < 0xA0) then
            match rest2 with
            | [] => [0xFFFD]
            | b3 :: rest3 =>
              if 0x80 ≤ b3 ∧ b3 < 0xC0 then
                ((b1 - 0xE0) * 4096 + (b2 - 0x80) * 64 + (b3 - 0x80)) :: utf8DecodeLossy rest3
              else
                0xFFFD :: utf8DecodeLossy (b3 :: rest3)
          else
            0xFFFD :: utf8DecodeLossy (b2 :: rest2)
      else if b1 ≤ 0xF4 then
        match rest with
        | [] => [0xFFFD]
        | b2 :: rest2 =>
          if 0x80 ≤ b2 ∧ b2 < 0xC0 ∧ (b1 = 0xF0 → 0x90 ≤ b2) ∧ (b1 = 0xF4 → b2 < 0x90) then
            match rest2 with
            | [] => [0xFFFD]
            | b3 :: rest3 =>
              if 0x80 ≤ b3 ∧ b3 < 0xC0 then
                match rest3 with
                | [] => [0xFFFD]
                | b4 :: rest4 =>
                  if 0x80 ≤ b4 ∧ b4 < 0xC0 then
                    ((b1 - 0xF0) * 262144 + (b2 - 0x80) * 4096 + (b3 - 0x80) * 64 + (b4 - 0x80)) ::
                      utf8DecodeLossy rest4
                  else
                    0xFFFD :: utf8DecodeLossy (b4 :: rest4)
              else
                0xFFFD :: utf8DecodeLossy (b3 :: rest3)
          else
            0xFFFD :: utf8DecodeLossy (b2 :: rest2)
      else
        0xFFFD :: utf8DecodeLossy rest := by
  rw [utf8DecodeLossy.eq_def]

theorem utf8DecodeLossy_sound (bs : List Nat) :
    0xFFFD ∉ utf8DecodeLossy bs →
      (∀ c ∈ utf8DecodeLossy bs, ScalarValue c) ∧ utf8Encode (utf8DecodeLossy bs) = bs := by
  induction bs using utf8DecodeLossy.induct with
  | case1 =>
    intro _
    simp [utf8DecodeLossy, utf8Encode]
  | case2 b rest hb ih =>
    intro hmem
    rw [utf8DecodeLossy_cons_eq, if_pos hb] at hmem ⊢
    rw [List.mem_cons, not_or] at hmem
    obtain ⟨-, hmem2⟩ := hmem
    obtain ⟨hsc, henc⟩ := ih hmem2
    refine ⟨?_, ?_⟩
    · intro x hx
      rcases List.mem_cons.mp hx with hx | hx
      · rw [hx]
        unfold ScalarValue
        omega
      · exact hsc x hx
    · rw [utf8Encode_cons, henc, utf8EncodeCp_ascii b hb]
      rfl
  | case3 b rest h1 h2 ih =>
    intro hmem
    refine absurd ?_ hmem
    rw [utf8DecodeLossy_cons_eq, if_neg h1, if_pos h2]
    exact List.mem_cons_self _ _
  | case4 b h1 h2 h3 =>
    intro hmem
    refine absurd ?_ hmem
    rw [utf8DecodeLossy_cons_eq, if_neg h1, if_neg h2, if_pos h3]
    simp
  | case5 b1 h1 h2 h3 b2 rest2 hc ih =>
    intro hmem
    rw [utf8DecodeLossy_cons_eq, if_neg h1, if_neg h2, if_pos h3] at hmem ⊢
    simp only [if_pos hc] at hmem ⊢
    rw [List.mem_cons, not_or] at hmem
    obtain ⟨-, hmem2⟩ := hmem
    obtain ⟨hsc, henc⟩ := ih hmem2
    refine ⟨?_, ?_⟩
    · intro x hx
      rcases List.mem_cons.mp hx with hx | hx
      · rw [hx]
        unfold ScalarValue
        omega
      · exact hsc x hx
    · rw [utf8Encode_cons, henc,
        utf8EncodeCp_two b1 b2 (by omega) (by omega) (by omega) (by omega)]
      rfl
  | case6 b1 h1 h2 h3 b2 rest2 hc ih =>
    intro hmem
    refine absurd ?_ hmem
    rw [utf8DecodeLossy_cons_eq, if_neg h1, if_neg h2, if_pos h3]
    simp [if_neg hc]
  | case7 b h1 h2 h3 h4 =>
    intro hmem
    refine absurd ?_ hmem
    rw [utf8DecodeLossy_cons_eq, if_neg h1, if_neg h2, if_neg h3, if_pos h4]
    simp
  | case8 b1 h1 h2 h3 h4 b2 hc2 =>
    intro hmem
    refine absurd ?_ hmem
    rw [utf8DecodeLossy_cons_eq, if_neg h1, if_neg h2, if_neg h3, if_pos h4]
    simp [if_pos hc2]
  | case9 b1 h1 h2 h3 h4 b2 hc2 b3 rest3 hc3 ih =>
    intro hmem
    rw [utf8DecodeLossy_cons_eq, if_neg h1, if_neg h2, if_neg h3, if_pos h4] at hmem ⊢
    simp only [if_pos hc2, if_pos hc3] at hmem ⊢
    rw [List.mem_cons, not_or] at hmem
    obtain ⟨-, hmem2⟩ := hmem
    obtain ⟨hsc, henc⟩ := ih hmem2
    obtain ⟨hca, hcb, hcc, hcd⟩ := hc2
    refine ⟨?_, ?_⟩
    · intro x hx
      rcases List.mem_cons.mp hx with hx | hx
      · rw [hx]
        unfold ScalarValue
        omega
      · exact hsc x hx
    · rw [utf8Encode_cons, henc,
        utf8EncodeCp_three b1 b2 b3 (by omega) (by omega) hca hcb hcc
          (by omega) (by omega)]
      rfl
  | case10 b1 h1 h2 h3 h4 b2 hc2 b3 rest3 hc3 ih =>
    intro hmem
    refine absurd ?_ hmem
    rw [utf8DecodeLossy_cons_eq, if_neg h1, if_neg h2, if_neg h3, if_pos h4]
    simp [if_pos hc2, if_neg hc3]
  | case11 b1 h1 h2 h3 h4 b2 rest2 hc2 ih =>
    intro hmem
    refine absurd ?_ hmem
    rw [utf8DecodeLossy_cons_eq, if_neg h1, if_neg h2, if_neg h3, if_pos h4]
    simp [if_neg hc2]
  | case12 b h1 h2 h3 h4 h5 =>
    intro hmem
    refine absurd ?_ hmem
    rw [utf8DecodeLossy_cons_eq, if_neg h1, if_neg h2, if_neg h3, if_neg h4, if_pos h5]
    simp
  | case13 b1 h1 h2 h3 h4 h5 b2 hc2 =>
    intro hmem
    refine absurd ?_ hmem
    rw [utf8DecodeLossy_cons_eq, if_neg h1, if_neg h2, if_neg h3, if_neg h4, if_pos h5]
    simp [if_pos hc2]
  | case14 b1 h1 h2 h3 h4 h5 b2 hc2 b3 hc3 =>
    intro hmem
    refine absurd ?_ hmem
    rw [utf8DecodeLossy_cons_eq, if_neg h1, if_neg h2, if_neg h3, if_neg h4, if_pos h5]
    simp [if_pos hc2, if_pos hc3]
  | case15 b1 h1 h2 h3 h4 h5 b2 hc2 b3 hc3 b4 rest4 hc4 ih =>
    intro hmem
    rw [utf8DecodeLossy_cons_eq, if_neg h1, if_neg h2, if_neg h3, if_neg h4,
      if_pos h5] at hmem ⊢
    simp only [if_pos hc2, if_pos hc3, if_pos hc4] at hmem ⊢
    rw [List.mem_cons, not_or] at hmem
    obtain ⟨-, hmem2⟩ := hmem
    obtain ⟨hsc, henc⟩ := ih hmem2
    obtain ⟨hca, hcb, hcc, hcd⟩ := hc2
    refine ⟨?_, ?_⟩
    · intro x hx
      rcases List.mem_cons.mp hx with hx | hx
      · rw [hx]
        unfold ScalarValue
        omega
      · exact hsc x hx
    · rw [utf8Encode_cons, henc,
        utf8EncodeCp_four b1 b2 b3 b4 (by omega) (by omega) hca hcb hcc
          (by omega) (by omega) (by omega) (by omega)]
      rfl
  | case16 b1 h1 h2 h3 h4 h5 b2 hc2 b3 hc3 b4 rest4 hc4 ih =>
    intro hmem
    refine absurd ?_ hmem
    rw [utf8DecodeLossy_cons_eq, if_neg h1, if_neg h2, if_neg h3, if_neg h4, if_pos h5]
    simp [if_pos hc2, if_pos hc3, if_neg hc4]
  | case17 b1 h1 h2 h3 h4 h5 b2 hc2 b3 rest3 hc3 ih =>
    intro hmem
    refine absurd ?_ hmem
    rw [utf8DecodeLossy_cons_eq, if_neg h1, if_neg h2, if_neg h3, if_neg h4, if_pos h5]
    simp [if_pos hc2, if_neg hc3]
  | case18 b1 h1 h2 h3 h4 h5 b2 rest2 hc2 ih =>
    intro hmem
    refine absurd ?_ hmem
    rw [utf8DecodeLossy_cons_eq, if_neg h1, if_neg h2, if_neg h3, if_neg h4, if_pos h5]
    simp [if_neg hc2]
  | case19 b1 rest h1 h2 h3 h4 h5 ih =>
    intro hmem
    refine absurd ?_ hmem
    rw [utf8DecodeLossy_cons_eq, if_neg h1, if_neg h2, if_neg h3, if_neg h4, if_neg h5]
    exact List.mem_cons_self _ _

theorem runTerminates_none (n : Nat) : runTerminates n none = (none, []) := by
  induction n with
  | zero => rfl
  | succ m ih => simp [runTerminates, on_window_event, ih]

theorem utf8EncodeCp_head_lt (c : Nat) (h : ScalarValue c) :
    ∃ b t, utf8EncodeCp c = b :: t ∧ b < 0xF5 := by
  unfold ScalarValue at h
  unfold utf8EncodeCp
  split_ifs with h1 h2 h3
  · exact ⟨_, _, rfl, by omega⟩
  · exact ⟨_, _, rfl, by omega⟩
  · exact ⟨_, _, rfl, by omega⟩
  · exact ⟨_, _, rfl, by omega⟩

theorem not_validUtf8_ff : ¬ ValidUtf8 [0xFF] := by
  rintro ⟨cs, hsc, henc⟩
  cases cs with
  | nil => simp [utf8Encode] at henc
  | cons c cs =>
    obtain ⟨b, t, he, hb⟩ := utf8EncodeCp_head_lt c (hsc c (List.mem_cons_self c cs))
    rw [utf8Encode_cons, he, List.cons_append] at henc
    injection henc with hb1 _
    omega

theorem reverse_dropWhile_decomp (p : Char → Bool) (l : List Char) :
    l = (l.reverse.dropWhile p).reverse ++ (l.reverse.takeWhile p).reverse := by
  conv_lhs =>
    rw [← List.reverse_reverse l,
      ← List.takeWhile_append_dropWhile (p := p) (l := l.reverse)]
  rw [List.reverse_append]

theorem rustTrim_decomp (s : String) :
    ∃ lead trail : List Char,
      (∀ c ∈ lead, isRustWhitespace c = true) ∧
      (∀ c ∈ trail, isRustWhitespace c = true) ∧
      s.data = lead ++ (rustTrim s).data ++ trail := by
  refine ⟨s.data.takeWhile isRustWhitespace,
    ((s.data.dropWhile isRustWhitespace).reverse.takeWhile isRustWhitespace).reverse,
    ?_, ?_, ?_⟩
  · intro c hc
    exact List.mem_takeWhile_imp hc
  · intro c hc
    rw [List.mem_reverse] at hc
    exact List.mem_takeWhile_imp hc
  · have h2 := reverse_dropWhile_decomp isRustWhitespace (s.data.dropWhile isRustWhitespace)
    conv_lhs =>
      rw [← List.takeWhile_append_dropWhile (p := isRustWhitespace) (l := s.data), h2]
    rw [List.append_assoc]
    rfl

/-! ## Claim theorems -/

/-- C1: for every sequence of `n ≥ 1` invocations of the window-destroy
handler after a handle has been stored, exactly one kill signal is sent —
to the stored handle, by the first invocation, which finds the slot
occupied — and an invocation that finds the slot empty is a silent no-op
(no kill, no log, slot stays empty). -/
theorem terminate_sends_exactly_one_kill (child : CommandChild) (n : Nat) (h : 1 ≤ n) :
    runTerminates n (some child) = (none, [child]) ∧
    on_window_event none = (none, [], []) := by
  refine ⟨?_, rfl⟩
  obtain ⟨m, rfl⟩ : ∃ m, n = m + 1 := ⟨n - 1, by omega⟩
  simp [runTerminates, on_window_event, runTerminates_none]

/-- C1 witness: three invocations against a slot holding handle 7 send
exactly one kill signal, to handle 7. -/
theorem terminate_sends_exactly_one_kill_witness :
    1 ≤ 3 ∧ (runTerminates 3 (some 7) = (none, [7]) ∧ on_window_event none = (none, [], [])) :=
  ⟨by decide, terminate_sends_exactly_one_kill 7 3 (by decide)⟩

/-- C2 counterexample: if the destroy handler runs before the handle is
stored, the later store leaves handle 7 live and reachable in the slot and
no kill signal was ever sent to it — the claim that the completing
`store()` cannot make a live handle reachable again fails on this code. -/
theorem store_after_terminate_leaves_live_handle :
    runOps (none, []) [SupOp.terminate, SupOp.store 7] = (some 7, []) := rfl

/-- C2 amended: a terminate that finds the slot empty (not yet stored, or
already taken — the two states are indistinguishable to the handler) is a
silent no-op, but a `store()` completing after such a terminate does make a
live handle reachable again; that handle is killed only if a further
terminate runs afterwards. -/
theorem terminate_before_store_is_noop_but_store_resurrects (child : CommandChild)
    (kills : List CommandChild) :
    supStep (none, kills) SupOp.terminate = (none, kills) ∧
    runOps (none, []) [SupOp.terminate, SupOp.store child] = (some child, []) ∧
    runOps (none, []) [SupOp.terminate, SupOp.store child, SupOp.terminate] =
      (none, [child]) := by
  refine ⟨?_, rfl, rfl⟩
  simp [supStep, on_window_event]

/-- C3 counterexample: on the stream
`[Stdout "ready", Stderr "warn: low memory", Terminated(code 0)]` the relay
emits three log entries, not two — the `Terminated` arm logs an info line
before breaking. -/
theorem relay_ready_stream_logs_three_not_two :
    (relayRun [CommandEvent.Stdout [114, 101, 97, 100, 121],
      CommandEvent.Stderr
        [119, 97, 114, 110, 58, 32, 108, 111, 119, 32, 109, 101, 109, 111, 114, 121],
      CommandEvent.Terminated ⟨some 0, none⟩]).1.length = 3 := by decide

/-- C3 amended: on that stream the relay emits exactly three entries —
info "ready", warning "warn: low memory", and a final info entry recording
the termination payload — and then stops consuming events. -/
theorem relay_ready_stream_exact_log :
    relayRun [CommandEvent.Stdout [114, 101, 97, 100, 121],
      CommandEvent.Stderr
        [119, 97, 114, 110, 58, 32, 108, 111, 119, 32, 109, 101, 109, 111, 114, 121],
      CommandEvent.Terminated ⟨some 0, none⟩] =
    ([(LogLevel.info, "[sidecar] ready"),
      (LogLevel.warn, "[sidecar] warn: low memory"),
      (LogLevel.info,
        "[sidecar] terminated with TerminatedPayload \x7b code: Some(0), signal: None \x7d")],
     []) := by decide

/-- C4: the relay forwards each event with the severity mapping
stdout→info, stderr→warning, terminated→info, error→error, stops at the
first terminal event, and on the stream `[SpawnOrIoError "permission
denied"]` logs exactly one error-level entry and reads nothing further. -/
theorem relay_severity_mapping_and_stops_at_terminal (line : List Nat) (message : String)
    (payload : TerminatedPayload) (rest : List CommandEvent) :
    relayRun (CommandEvent.Stdout line :: rest) =
      ((LogLevel.info, stdoutMessage line) :: (relayRun rest).1, (relayRun rest).2) ∧
    relayRun (CommandEvent.Stderr line :: rest) =
      ((LogLevel.warn, stderrMessage line) :: (relayRun rest).1, (relayRun rest).2) ∧
    relayRun (CommandEvent.Terminated payload :: rest) =
      ([(LogLevel.info, terminatedMessage payload)], rest) ∧
    relayRun (CommandEvent.Error message :: rest) =
      ([(LogLevel.error, errorMessage message)], rest) ∧
    relayRun [CommandEvent.Error "permission denied"] =
      ([(LogLevel.error, "[sidecar] error: permission denied")], []) :=
  ⟨rfl, rfl, rfl, rfl, rfl⟩

/-- C5 counterexample: for the stdout line "  ready" (leading whitespace)
the logged message is "[sidecar] ready" — the text with only trailing
whitespace removed ("  ready") does not occur in it, because `str::trim`
removes leading whitespace too. -/
theorem stdout_trailing_trim_counterexample :
    (relayRun [CommandEvent.Stdout [32, 32, 114, 101, 97, 100, 121]]).1 =
      [(LogLevel.info, "[sidecar] ready")] ∧
    ¬ ((specTrailingTrim (fromUtf8Lossy [32, 32, 114, 101, 97, 100, 121])).data <:+:
      "[sidecar] ready".data) := by decide

/-- C5 amended: every `Stdout` event logs an info entry and every `Stderr`
event a warning entry containing the lossily decoded line with both leading
and trailing whitespace trimmed (and only whitespace removed, as the
decomposition shows). -/
theorem stdout_stderr_trim_both_ends (line : List Nat) (rest : List CommandEvent) :
    ∃ lead trail : List Char,
      (∀ c ∈ lead, isRustWhitespace c = true) ∧
      (∀ c ∈ trail, isRustWhitespace c = true) ∧
      (fromUtf8Lossy line).data = lead ++ (rustTrim (fromUtf8Lossy line)).data ++ trail ∧
      relayRun (CommandEvent.Stdout line :: rest) =
        ((LogLevel.info, "[sidecar] " ++ rustTrim (fromUtf8Lossy line)) :: (relayRun rest).1,
          (relayRun rest).2) ∧
      relayRun (CommandEvent.Stderr line :: rest) =
        ((LogLevel.warn, "[sidecar] " ++ rustTrim (fromUtf8Lossy line)) :: (relayRun rest).1,
          (relayRun rest).2) := by
  obtain ⟨lead, trail, h1, h2, h3⟩ := rustTrim_decomp (fromUtf8Lossy line)
  exact ⟨lead, trail, h1, h2, h3, rfl, rfl⟩

/-- C6: the slot holds at most one live handle in every state; after the
first destroy-handler invocation takes the handle out, the slot is empty
and every further invocation — the only operation reachable after setup —
leaves it empty (no respawn). -/
theorem slot_once_taken_stays_empty (child : CommandChild) (n : Nat) (h : 1 ≤ n) :
    (runTerminates n (some child)).1 = none ∧
    (∀ m : Nat, (runTerminates m none).1 = none) ∧
    (∀ slot : Option CommandChild, slotCount slot ≤ 1) := by
  refine ⟨?_, ?_, ?_⟩
  · obtain ⟨m, rfl⟩ : ∃ m, n = m + 1 := ⟨n - 1, by omega⟩
    simp [runTerminates, on_window_event, runTerminates_none]
  · intro m
    rw [runTerminates_none]
  · intro slot
    cases slot <;> simp [slotCount]

/-- C6 witness: after two invocations against a slot holding handle 5 the
slot is empty, stays empty, and every slot state holds at most one
handle. -/
theorem slot_once_taken_stays_empty_witness :
    1 ≤ 2 ∧ ((runTerminates 2 (some 5)).1 = none ∧
      (∀ m : Nat, (runTerminates m none).1 = none) ∧
      (∀ slot : Option CommandChild, slotCount slot ≤ 1)) :=
  ⟨by decide, slot_once_taken_stays_empty 5 2 (by decide)⟩

/-- C7: whatever `kill()` returns — success or failure because the process
already exited — the destroy handler discards the result and returns
normally for every slot state; the failure neither propagates nor changes
the handler's outcome. -/
theorem terminate_swallows_kill_failure (kill1 kill2 : CommandChild → Except String Unit)
    (slot : Option CommandChild) :
    on_window_event_result kill1 slot = Except.ok () ∧
    on_window_event_result kill1 slot = on_window_event_result kill2 slot := by
  cases slot <;> exact ⟨rfl, rfl⟩

/-- C8: startup aborts exactly when sidecar resolution or the spawn call
fails (the two `.expect`s); a successful spawn yields only the event stream
and the handle — whatever events the stream later carries, including
`Terminated` and `Error`, setup has already succeeded, so post-spawn
failures surface only as stream events. -/
theorem setup_aborts_only_on_resolution_or_spawn_failure (e : String)
    (spawnRes : Except String (List CommandEvent × CommandChild))
    (rx : List CommandEvent) (child : CommandChild) :
    setup (Except.error e) spawnRes =
      Except.error ("failed to create sidecar command: " ++ e) ∧
    setup (Except.ok ()) (Except.error e) =
      Except.error ("failed to spawn sidecar: " ++ e) ∧
    setup (Except.ok ()) (Except.ok (rx, child)) = Except.ok (rx, some child) :=
  ⟨rfl, rfl, rfl⟩

/-- C9: lossy decoding is total — a `Stdout` or `Stderr` event always
yields exactly one log entry and the relay keeps consuming — and every
byte list that is not valid UTF-8 decodes to a code-point list containing
the replacement character U+FFFD. -/
theorem lossy_decoding_total_and_marks_invalid (bs : List Nat) (rest : List CommandEvent) :
    relayRun (CommandEvent.Stdout bs :: rest) =
      ((LogLevel.info, stdoutMessage bs) :: (relayRun rest).1, (relayRun rest).2) ∧
    relayRun (CommandEvent.Stderr bs :: rest) =
      ((LogLevel.warn, stderrMessage bs) :: (relayRun rest).1, (relayRun rest).2) ∧
    (¬ ValidUtf8 bs → 0xFFFD ∈ utf8DecodeLossy bs) := by
  refine ⟨rfl, rfl, ?_⟩
  intro hnv
  by_contra hmem
  obtain ⟨hsc, henc⟩ := utf8DecodeLossy_sound bs hmem
  exact hnv ⟨utf8DecodeLossy bs, hsc, henc⟩

/-- C9 witness: the byte `0xFF` is not valid UTF-8 and its lossy decoding
contains the replacement character. -/
theorem lossy_decoding_total_and_marks_invalid_witness :
    ¬ ValidUtf8 [0xFF] ∧ 0xFFFD ∈ utf8DecodeLossy [0xFF] :=
  ⟨not_validUtf8_ff, (lossy_decoding_total_and_marks_invalid [0xFF] []).2.2 not_validUtf8_ff⟩

/-- C10: an event matched by none of the four named arms falls into the
`_ => {}` arm — the relay emits no log entry for it, does not stop, and
continues with the rest of the stream. -/
theorem relay_skips_unknown_event_variants (rest : List CommandEvent) :
    relayRun (CommandEvent.Other :: rest) = relayRun rest := rfl

end TranscribeAlpha
